import Mathlib

/-!
# Verification of the caregiver-time analysis script

Shallow embedding of the metrics computed by the Streamlit script
(`ct..py`): per-visit durations and short flags, inter-visit gaps,
totals, averages, the monthly forecast, and the per-period grouping.

Times of day are embedded as rational minutes since midnight; the
pandas datetime subtractions divided by 60 become exact rational
subtractions of those minute values. Dates are (year, month, day)
triples of naturals.
-/

namespace CareTimes

/-- A calendar date, as parsed from the `Date` column (`%d.%m.%Y`). -/
structure Date where
  year : Nat
  month : Nat
  day : Nat
deriving DecidableEq, Repr

/-- One row of `caregiver_times.csv` after loading: the visit's date, the
`Coming` and `Going` times of day (in minutes since midnight, fractional
allowed), and the `Time of day` period label. -/
structure Record where
  date : Date
  coming : ℚ
  going : ℚ
  period : String
deriving DecidableEq, Repr

/-- Configuration thresholds, from `CONFIG['visit_thresholds']`
(`short_visit`, `short_gap`), in minutes. -/
structure Config where
  short_visit : ℚ
  short_gap : ℚ
deriving DecidableEq, Repr

/-- The script's `CONFIG` values: `short_visit = 10`, `short_gap = 150`. -/
def defaultConfig : Config := ⟨10, 150⟩

/-- `data['Duration'] = (data['Going'] - data['Coming']).dt.total_seconds() / 60`:
departure minus arrival, in minutes. No validation is performed. -/
def duration (r : Record) : ℚ := r.going - r.coming

/-- `data['Short_Visit'] = data['Duration'] < CONFIG['visit_thresholds']['short_visit']`. -/
def shortVisit (cfg : Config) (r : Record) : Bool := duration r < cfg.short_visit

/-- `data['Short_Visit'].sum()`: the number of rows flagged short. -/
def shortVisitCount (cfg : Config) (rs : List Record) : Nat :=
  (rs.filter (fun r => shortVisit cfg r)).length

/-- `total_minutes = data['Duration'].sum()`. -/
def total_minutes (rs : List Record) : ℚ := (rs.map duration).sum

/-- `total_hours = total_minutes / 60`. -/
def total_hours (rs : List Record) : ℚ := total_minutes rs / 60

/-- `data['Date'].dt.month.iloc[0]`: month of the first row in input order
(0 on an empty frame, where the script would instead raise). -/
def current_month (rs : List Record) : Nat :=
  match rs with
  | [] => 0
  | r :: _ => r.date.month

/-- `data['Date'].dt.year.iloc[0]`: year of the first row in input order. -/
def current_year (rs : List Record) : Nat :=
  match rs with
  | [] => 0
  | r :: _ => r.date.year

/-- Gregorian leap-year test, as used by `calendar.monthrange`. -/
def isLeapYear (y : Nat) : Bool :=
  (y % 4 == 0 && y % 100 != 0) || y % 400 == 0

/-- `calendar.monthrange(year, month)[1]`: number of days in the month. -/
def daysInMonth (y m : Nat) : Nat :=
  if m = 2 then (if isLeapYear y then 29 else 28)
  else if m = 4 ∨ m = 6 ∨ m = 9 ∨ m = 11 then 30
  else 31

/-- `days_in_month = calendar.monthrange(current_year, current_month)[1]`. -/
def days_in_month (rs : List Record) : Nat :=
  daysInMonth (current_year rs) (current_month rs)

/-- Minimum of a list of naturals, 0 when empty (pandas `.min()` on the
nonempty frames the script works with). -/
def minD : List Nat → Nat
  | [] => 0
  | x :: xs => xs.foldl Nat.min x

/-- Maximum of a list of naturals, 0 when empty (pandas `.max()`). -/
def maxD : List Nat → Nat
  | [] => 0
  | x :: xs => xs.foldl Nat.max x

/-- `first_day = data['Date'].dt.day.min()`: smallest day-of-month over all
rows, regardless of their month or year. -/
def first_day (rs : List Record) : Nat := minD (rs.map (fun r => r.date.day))

/-- `last_day = data['Date'].dt.day.max()`: largest day-of-month over all rows. -/
def last_day (rs : List Record) : Nat := maxD (rs.map (fun r => r.date.day))

/-- `total_days_covered = last_day - first_day + 1`. -/
def total_days_covered (rs : List Record) : Nat := last_day rs - first_day rs + 1

/-- `daily_average = total_hours / total_days_covered`. -/
def daily_average (rs : List Record) : ℚ :=
  total_hours rs / (total_days_covered rs : ℚ)

/-- `forecasted_total = daily_average * days_in_month`. -/
def forecasted_total (rs : List Record) : ℚ :=
  daily_average rs * (days_in_month rs : ℚ)

/-- Helper for `uniqueFirstSeen`: keeps each element not already in `seen`,
threading the elements kept so far. -/
def uniqueFirstSeenAux {α : Type} [DecidableEq α] (seen : List α) : List α → List α
  | [] => []
  | x :: xs =>
    if x ∈ seen then uniqueFirstSeenAux seen xs
    else x :: uniqueFirstSeenAux (x :: seen) xs

/-- First occurrence of each element, in order of first appearance:
`pandas.Series.unique()` returns the distinct values in order of appearance. -/
def uniqueFirstSeen {α : Type} [DecidableEq α] (l : List α) : List α :=
  uniqueFirstSeenAux [] l

/-- `data['Date'].dt.date.unique()`: the distinct dates in first-seen order. -/
def uniqueDates (rs : List Record) : List Date :=
  uniqueFirstSeen (rs.map (fun r => r.date))

/-- `data[data['Date'].dt.date == date]`: the rows on one date, keeping input order. -/
def visitsOn (rs : List Record) (d : Date) : List Record :=
  rs.filter (fun r => r.date = d)

/-- Comparison of rows by arrival time, used by `.sort_values('Coming')`. -/
def comingLE (a b : Record) : Prop := a.coming ≤ b.coming

instance : DecidableRel comingLE := fun a b => inferInstanceAs (Decidable (a.coming ≤ b.coming))

instance : IsTotal Record comingLE := ⟨fun a b => le_total a.coming b.coming⟩

instance : IsTrans Record comingLE := ⟨fun _ _ _ h h' => le_trans h h'⟩

/-- `day_data = ... .sort_values('Coming')`: the day's rows sorted ascending
by arrival time. -/
def sortByComing (rs : List Record) : List Record :=
  rs.insertionSort comingLE

/-- The inner loop `for i in range(len(day_data) - 1): gap = (day_data.iloc[i+1]['Coming']
- day_data.iloc[i]['Going']).total_seconds() / 60`: one gap per adjacent pair. -/
def dayGaps : List Record → List ℚ
  | r1 :: r2 :: rest => (r2.coming - r1.going) :: dayGaps (r2 :: rest)
  | _ => []

/-- `all_gaps`: for each distinct date in first-seen order, the gaps between
consecutive (arrival-sorted) visits of that date, appended into one list. -/
def all_gaps (rs : List Record) : List ℚ :=
  (uniqueDates rs).flatMap (fun d => dayGaps (sortByComing (visitsOn rs d)))

/-- `short_gaps = sum(gap < CONFIG['visit_thresholds']['short_gap'] for gap in all_gaps)`. -/
def short_gaps (cfg : Config) (rs : List Record) : Nat :=
  ((all_gaps rs).filter (fun g => g < cfg.short_gap)).length

/-- The `with col2` block: `short_gaps` and `short_gaps/len(all_gaps)*100`.
Python raises `ZeroDivisionError` when `all_gaps` is empty, aborting the
script run; that exceptional path is modelled with `Except.error`. -/
def shortGapStats (cfg : Config) (rs : List Record) : Except String (Nat × ℚ) :=
  if (all_gaps rs).length = 0 then Except.error "ZeroDivisionError"
  else Except.ok (short_gaps cfg rs,
    (short_gaps cfg rs : ℚ) / ((all_gaps rs).length : ℚ) * 100)

/-- Mean of the `Duration` column of a list of rows (`.mean()`). -/
def meanDuration (rs : List Record) : ℚ :=
  (rs.map duration).sum / (rs.length : ℚ)

/-- The distinct `Time of day` labels in first-seen order. -/
def periodsFirstSeen (rs : List Record) : List String :=
  uniqueFirstSeen (rs.map (fun r => r.period))

/-- Lexicographic comparison of character lists by code point, the order
Python uses on strings. -/
def strLEb : List Char → List Char → Bool
  | [], _ => true
  | _ :: _, [] => false
  | x :: xs, y :: ys =>
    if x.toNat < y.toNat then true
    else if y.toNat < x.toNat then false
    else strLEb xs ys

/-- Lexicographic order on strings by code point (Python's string `<=`). -/
def strLE (a b : String) : Prop := strLEb a.data b.data = true

instance : DecidableRel strLE :=
  fun a b => inferInstanceAs (Decidable (strLEb a.data b.data = true))

theorem strLEb_total : ∀ l1 l2 : List Char, strLEb l1 l2 = true ∨ strLEb l2 l1 = true := by
  intro l1
  induction l1 with
  | nil => intro l2; left; rfl
  | cons x xs ih =>
    intro l2
    cases l2 with
    | nil => right; rfl
    | cons y ys =>
      simp only [strLEb]
      rcases Nat.lt_trichotomy x.toNat y.toNat with h | h | h
      · left; simp [h]
      · have h' : ¬ y.toNat < x.toNat := by omega
        have h'' : ¬ x.toNat < y.toNat := by omega
        rcases ih ys with hh | hh
        · left; simp [h', h'', hh]
        · right; simp [h', h'', hh]
      · right; simp [h, Nat.lt_asymm h]

theorem strLEb_trans : ∀ l1 l2 l3 : List Char,
    strLEb l1 l2 = true → strLEb l2 l3 = true → strLEb l1 l3 = true := by
  intro l1
  induction l1 with
  | nil => intro l2 l3 _ _; rfl
  | cons x xs ih =>
    intro l2 l3 h12 h23
    cases l2 with
    | nil => simp [strLEb] at h12
    | cons y ys =>
      cases l3 with
      | nil => simp [strLEb] at h23
      | cons z zs =>
        simp only [strLEb] at h12 h23 ⊢
        split_ifs at h12 h23 ⊢ with h1 h2 h3 h4 h5 h6 <;>
          first
            | rfl
            | omega
            | (exact ih ys zs h12 h23)

instance : IsTotal String strLE := ⟨fun a b => strLEb_total a.data b.data⟩

instance : IsTrans String strLE := ⟨fun a b c => strLEb_trans a.data b.data c.data⟩

/-- `data.groupby('Time of day')['Duration'].mean()`: pandas `groupby` with the
default `sort=True` lists the group keys in ascending (lexicographic) order;
each key is paired with the mean duration of its group. -/
def avg_duration (rs : List Record) : List (String × ℚ) :=
  ((periodsFirstSeen rs).insertionSort strLE).map
    (fun p => (p, meanDuration (rs.filter (fun r => r.period = p))))

/-- `avg_duration.mean()`: the mean of the per-period group means. -/
def overall_average (rs : List Record) : ℚ :=
  ((avg_duration rs).map Prod.snd).sum / ((avg_duration rs).length : ℚ)

/-- The mean duration over all visits (what a size-weighted overall average
would be); the script does not compute this. -/
def visitMean (rs : List Record) : ℚ := meanDuration rs

/-- `daily_hours = total_hours / len(data['Date'].dt.date.unique())`. -/
def daily_hours (rs : List Record) : ℚ :=
  total_hours rs / ((uniqueDates rs).length : ℚ)

/-- Minimum of a list of rationals, 0 when empty (`data['Duration'].min()`). -/
def minDQ : List ℚ → ℚ
  | [] => 0
  | x :: xs => xs.foldl min x

/-- Maximum of a list of rationals, 0 when empty (`data['Duration'].max()`). -/
def maxDQ : List ℚ → ℚ
  | [] => 0
  | x :: xs => xs.foldl max x

instance {ε α : Type} [DecidableEq ε] [DecidableEq α] : DecidableEq (Except ε α)
  | Except.error e, Except.error e' =>
    decidable_of_iff (e = e') (by simp)
  | Except.error _, Except.ok _ => isFalse (by simp)
  | Except.ok _, Except.error _ => isFalse (by simp)
  | Except.ok a, Except.ok a' =>
    decidable_of_iff (a = a') (by simp)

/-- All values the script derives and displays, gathered in one structure. -/
structure Report where
  durations : List ℚ
  shortFlags : List Bool
  totalMinutes : ℚ
  totalHours : ℚ
  dailyHours : ℚ
  forecast : ℚ
  shortVisits : Nat
  gaps : List ℚ
  gapStats : Except String (Nat × ℚ)
  perPeriod : List (String × ℚ)
  overallAverage : ℚ
  minDuration : ℚ
  maxDuration : ℚ
deriving DecidableEq, Repr

/-- The whole metrics pipeline: every derived value as a function of the
input rows and the configuration alone. -/
def analyze (cfg : Config) (rs : List Record) : Report where
  durations := rs.map duration
  shortFlags := rs.map (fun r => shortVisit cfg r)
  totalMinutes := total_minutes rs
  totalHours := total_hours rs
  dailyHours := daily_hours rs
  forecast := forecasted_total rs
  shortVisits := shortVisitCount cfg rs
  gaps := all_gaps rs
  gapStats := shortGapStats cfg rs
  perPeriod := avg_duration rs
  overallAverage := overall_average rs
  minDuration := minDQ (rs.map duration)
  maxDuration := maxDQ (rs.map duration)

/-! ### Spec-side definitions for refinement comparisons

The following definitions follow the specification's words (not the script)
and exist only to be compared against the script's definitions above. -/

/-- Days in the months strictly before month `m` of year `y`. -/
def daysBeforeMonth (y m : Nat) : Nat :=
  (List.range (m - 1)).foldl (fun acc k => acc + daysInMonth y (k + 1)) 0

/-- Day number of the first day of month `m` of year `y`, minus one, counting
from 0001-01-01 as day 1 (proleptic Gregorian). -/
def yearMonthBase (y m : Nat) : Nat :=
  365 * (y - 1) + (y - 1) / 4 - (y - 1) / 100 + (y - 1) / 400 + daysBeforeMonth y m

/-- Absolute day number of a date, so that differences of day numbers count
calendar days between dates. -/
def dateOrdinal (d : Date) : Nat := yearMonthBase d.year d.month + d.day

/-- Spec formulation: the earliest date of the visit set (`first_date`). -/
def firstDate : List Record → Date
  | [] => ⟨0, 0, 0⟩
  | r :: rest =>
    rest.foldl (fun acc x => if dateOrdinal x.date < dateOrdinal acc then x.date else acc) r.date

/-- Spec formulation: `coverage_days = last_date − first_date + 1`, the
inclusive calendar span between the earliest and latest dates. -/
def spec_coverage_days (rs : List Record) : Nat :=
  maxD (rs.map (fun r => dateOrdinal r.date)) - minD (rs.map (fun r => dateOrdinal r.date)) + 1

/-- Spec formulation: `forecasted_month_hours = (total_hours / coverage_days)
× days_in_calendar_month(first_date)`. -/
def spec_forecast (rs : List Record) : ℚ :=
  total_hours rs / (spec_coverage_days rs : ℚ) *
    (daysInMonth (firstDate rs).year (firstDate rs).month : ℚ)

/-- Spec formulation: per-period mean durations with the period labels in
first-seen order (the spec's "preserving first-seen period ordering"). -/
def avg_duration_first_seen (rs : List Record) : List (String × ℚ) :=
  (periodsFirstSeen rs).map
    (fun p => (p, meanDuration (rs.filter (fun r => r.period = p))))

/-! ### Example datasets used to instantiate the theorems -/

/-- A record whose departure (07:00) precedes its arrival (08:00). -/
def negRecord : Record := ⟨⟨2024, 3, 1⟩, 480, 420, "Morning"⟩

/-- First of two overlapping visits: 08:00–09:30. -/
def overlap1 : Record := ⟨⟨2024, 3, 1⟩, 480, 570, "Morning"⟩

/-- Second of two overlapping visits: 09:00–10:00, starting before the first ends. -/
def overlap2 : Record := ⟨⟨2024, 3, 1⟩, 540, 600, "Morning"⟩

/-- Two same-date visits where the first departs after the second arrives. -/
def sampleOverlap : List Record := [overlap1, overlap2]

/-- First of two visits on distinct dates. -/
def solo1 : Record := ⟨⟨2024, 3, 1⟩, 480, 540, "Morning"⟩

/-- Second of two visits on distinct dates. -/
def solo2 : Record := ⟨⟨2024, 3, 2⟩, 480, 540, "Morning"⟩

/-- Two visits on two different dates: every date has exactly one visit,
so there are no gaps at all. -/
def sampleSoloDays : List Record := [solo1, solo2]

/-- One two-hour visit on each of the days 1–10 of January 2024
(a 31-day month), for a total of 20 hours. -/
def sampleTenDays : List Record :=
  [⟨⟨2024, 1, 1⟩, 600, 720, "Morning"⟩, ⟨⟨2024, 1, 2⟩, 600, 720, "Morning"⟩,
   ⟨⟨2024, 1, 3⟩, 600, 720, "Morning"⟩, ⟨⟨2024, 1, 4⟩, 600, 720, "Morning"⟩,
   ⟨⟨2024, 1, 5⟩, 600, 720, "Morning"⟩, ⟨⟨2024, 1, 6⟩, 600, 720, "Morning"⟩,
   ⟨⟨2024, 1, 7⟩, 600, 720, "Morning"⟩, ⟨⟨2024, 1, 8⟩, 600, 720, "Morning"⟩,
   ⟨⟨2024, 1, 9⟩, 600, 720, "Morning"⟩, ⟨⟨2024, 1, 10⟩, 600, 720, "Morning"⟩]

/-- A one-hour visit on 2024-01-31. -/
def visitJan : Record := ⟨⟨2024, 1, 31⟩, 480, 540, "Morning"⟩

/-- A one-hour visit on 2024-02-01. -/
def visitFeb : Record := ⟨⟨2024, 2, 1⟩, 480, 540, "Morning"⟩

/-- Records spanning two calendar months, January record first. -/
def sampleJanFeb : List Record := [visitJan, visitFeb]

/-- The same two records with the February record first. -/
def sampleFebJan : List Record := [visitFeb, visitJan]

/-- Two same-date visits whose period labels appear in the order
Noon, Morning (the reverse of their alphabetical order). -/
def samplePeriods : List Record :=
  [⟨⟨2024, 3, 1⟩, 700, 730, "Noon"⟩, ⟨⟨2024, 3, 1⟩, 400, 460, "Morning"⟩]

/-- Three period groups with pairwise different sizes (1, 2, 6) and pairwise
different group means (10, 40, 20): the size-weighted mean over all visits and
the unweighted mean of the group means are both 70/3. -/
def sampleThreeGroups : List Record :=
  [⟨⟨2024, 3, 1⟩, 0, 10, "A"⟩,
   ⟨⟨2024, 3, 2⟩, 0, 40, "B"⟩, ⟨⟨2024, 3, 3⟩, 0, 40, "B"⟩,
   ⟨⟨2024, 3, 4⟩, 0, 20, "C"⟩, ⟨⟨2024, 3, 5⟩, 0, 20, "C"⟩,
   ⟨⟨2024, 3, 6⟩, 0, 20, "C"⟩, ⟨⟨2024, 3, 7⟩, 0, 20, "C"⟩,
   ⟨⟨2024, 3, 8⟩, 0, 20, "C"⟩, ⟨⟨2024, 3, 9⟩, 0, 20, "C"⟩]

/-- Two period groups with different sizes (1 and 2) and different
group means (10 and 40). -/
def sampleTwoGroups : List Record :=
  [⟨⟨2024, 3, 1⟩, 0, 10, "A"⟩,
   ⟨⟨2024, 3, 2⟩, 0, 40, "B"⟩, ⟨⟨2024, 3, 3⟩, 0, 40, "B"⟩]

/-! ### Helper lemmas -/

theorem mem_uniqueFirstSeenAux {α : Type} [DecidableEq α] (x : α) :
    ∀ (l seen : List α), x ∈ uniqueFirstSeenAux seen l ↔ (x ∈ l ∧ x ∉ seen) := by
  intro l
  induction l with
  | nil => intro seen; simp [uniqueFirstSeenAux]
  | cons y ys ih =>
    intro seen
    by_cases hy : y ∈ seen
    · simp only [uniqueFirstSeenAux, if_pos hy, ih, List.mem_cons]
      by_cases hxy : x = y
      · subst hxy; tauto
      · tauto
    · simp only [uniqueFirstSeenAux, if_neg hy, List.mem_cons, ih]
      by_cases hxy : x = y
      · subst hxy; tauto
      · tauto

theorem mem_uniqueFirstSeen {α : Type} [DecidableEq α] (x : α) (l : List α) :
    x ∈ uniqueFirstSeen l ↔ x ∈ l := by
  simp [uniqueFirstSeen, mem_uniqueFirstSeenAux]

theorem nodup_uniqueFirstSeenAux {α : Type} [DecidableEq α] :
    ∀ (l seen : List α), (uniqueFirstSeenAux seen l).Nodup := by
  intro l
  induction l with
  | nil => intro seen; simp [uniqueFirstSeenAux]
  | cons y ys ih =>
    intro seen
    by_cases hy : y ∈ seen
    · simpa [uniqueFirstSeenAux, if_pos hy] using ih seen
    · simp only [uniqueFirstSeenAux, if_neg hy, List.nodup_cons]
      refine ⟨fun hmem => ?_, ih (y :: seen)⟩
      exact ((mem_uniqueFirstSeenAux y ys (y :: seen)).mp hmem).2 (List.mem_cons_self y seen)

theorem nodup_uniqueFirstSeen {α : Type} [DecidableEq α] (l : List α) :
    (uniqueFirstSeen l).Nodup :=
  nodup_uniqueFirstSeenAux l []

theorem dayGaps_zip :
    ∀ l : List Record, dayGaps l = (l.zip l.tail).map (fun p => p.2.coming - p.1.going)
  | [] => rfl
  | [_] => rfl
  | r1 :: r2 :: rest => by
    have ih := dayGaps_zip (r2 :: rest)
    simp only [dayGaps, List.tail_cons, List.zip_cons_cons, List.map_cons, ih]

theorem length_dayGaps : ∀ l : List Record, (dayGaps l).length = l.length - 1
  | [] => rfl
  | [_] => rfl
  | r1 :: r2 :: rest => by
    have ih := length_dayGaps (r2 :: rest)
    simp only [dayGaps, List.length_cons] at ih ⊢
    omega

theorem foldl_min_map_add (c : Nat) :
    ∀ (xs : List Nat) (a : Nat),
      (xs.map (fun x => c + x)).foldl min (c + a) = c + xs.foldl min a := by
  intro xs
  induction xs with
  | nil => intro a; rfl
  | cons x xs ih =>
    intro a
    have hmin : min (c + a) (c + x) = c + min a x := by omega
    simp only [List.map_cons, List.foldl_cons, hmin, ih]

theorem foldl_max_map_add (c : Nat) :
    ∀ (xs : List Nat) (a : Nat),
      (xs.map (fun x => c + x)).foldl max (c + a) = c + xs.foldl max a := by
  intro xs
  induction xs with
  | nil => intro a; rfl
  | cons x xs ih =>
    intro a
    have hmax : max (c + a) (c + x) = c + max a x := by omega
    simp only [List.map_cons, List.foldl_cons, hmax, ih]

theorem minD_map_add (c : Nat) (l : List Nat) (h : l ≠ []) :
    minD (l.map (fun x => c + x)) = c + minD l := by
  cases l with
  | nil => exact absurd rfl h
  | cons x xs => simp only [List.map_cons, minD, foldl_min_map_add]

theorem maxD_map_add (c : Nat) (l : List Nat) (h : l ≠ []) :
    maxD (l.map (fun x => c + x)) = c + maxD l := by
  cases l with
  | nil => exact absurd rfl h
  | cons x xs => simp only [List.map_cons, maxD, foldl_max_map_add]

theorem foldl_pick_preserves (P : Date → Prop) :
    ∀ (l : List Record) (acc : Date), P acc → (∀ x ∈ l, P x.date) →
      P (l.foldl (fun acc x => if dateOrdinal x.date < dateOrdinal acc then x.date else acc) acc) := by
  intro l
  induction l with
  | nil => intro acc hacc _; exact hacc
  | cons x xs ih =>
    intro acc hacc hall
    simp only [List.foldl_cons]
    by_cases hx : dateOrdinal x.date < dateOrdinal acc
    · simp only [if_pos hx]
      exact ih _ (hall x (List.mem_cons_self x xs)) (fun y hy => hall y (List.mem_cons_of_mem _ hy))
    · simp only [if_neg hx]
      exact ih _ hacc (fun y hy => hall y (List.mem_cons_of_mem _ hy))

theorem firstDate_year_month (r0 : Record) (rest : List Record)
    (h : ∀ r ∈ r0 :: rest, r.date.year = r0.date.year ∧ r.date.month = r0.date.month) :
    (firstDate (r0 :: rest)).year = r0.date.year ∧
      (firstDate (r0 :: rest)).month = r0.date.month := by
  have := foldl_pick_preserves
    (fun d => d.year = r0.date.year ∧ d.month = r0.date.month) rest r0.date
    ⟨rfl, rfl⟩ (fun x hx => h x (List.mem_cons_of_mem _ hx))
  exact this

/-- Splitting length and duration-sum over the two period groups of a
two-period dataset. -/
theorem filter_period_partition (p q : String) (hpq : p ≠ q) :
    ∀ rs : List Record, (∀ r ∈ rs, r.period = p ∨ r.period = q) →
      (rs.filter (fun r => r.period = p)).length +
        (rs.filter (fun r => r.period = q)).length = rs.length ∧
      ((rs.filter (fun r => r.period = p)).map duration).sum +
        ((rs.filter (fun r => r.period = q)).map duration).sum = (rs.map duration).sum := by
  intro rs
  induction rs with
  | nil => intro _; simp
  | cons r rest ih =>
    intro hall
    have hrest := ih (fun x hx => hall x (List.mem_cons_of_mem _ hx))
    rcases hall r (List.mem_cons_self r rest) with hr | hr
    · have hnq : ¬ (r.period = q) := by rw [hr]; exact hpq
      have e1 : (decide (r.period = p)) = true := decide_eq_true hr
      have e2 : (decide (r.period = q)) = false := decide_eq_false hnq
      simp only [List.filter_cons, e1, e2, Bool.false_eq_true, if_true, if_false,
        List.length_cons, List.map_cons, List.sum_cons]
      constructor
      · omega
      · rw [← hrest.2]; ring
    · have hnp : ¬ (r.period = p) := by rw [hr]; intro hc; exact hpq hc.symm
      have e1 : (decide (r.period = p)) = false := decide_eq_false hnp
      have e2 : (decide (r.period = q)) = true := decide_eq_true hr
      simp only [List.filter_cons, e1, e2, Bool.false_eq_true, if_true, if_false,
        List.length_cons, List.map_cons, List.sum_cons]
      constructor
      · omega
      · rw [← hrest.2]; ring

/-- The group keys of `avg_duration` are the sorted distinct period labels. -/
theorem avg_duration_keys (rs : List Record) :
    (avg_duration rs).map Prod.fst = (periodsFirstSeen rs).insertionSort strLE := by
  unfold avg_duration
  rw [List.map_map]
  exact List.map_id _

/-! ### C1: duration derivation and departure-before-arrival records -/

/-- C1 counterexample: a record whose departure (07:00) precedes its arrival
(08:00) does not make the load fail — the pipeline simply produces the
negative duration −60, contradicting the claim that such input fails with
`InvalidRecord` and aborts the run. -/
theorem C1_counterexample :
    negRecord.going < negRecord.coming ∧ duration negRecord = -60 := by
  constructor
  · norm_num [negRecord]
  · norm_num [duration, negRecord]

/-- C1 amended: `duration_minutes = departure − arrival` holds for every
record, but a record with `departure < arrival` is not rejected: its duration
is simply negative (and it is even counted as a short visit, since any
negative duration is below the 10-minute threshold). -/
theorem C1_negative_duration_passes_through :
    (∀ r : Record, duration r = r.going - r.coming) ∧
    (∀ r : Record, r.going < r.coming →
      duration r < 0 ∧ shortVisit defaultConfig r = true) := by
  refine ⟨fun r => rfl, fun r h => ⟨sub_neg.mpr h, ?_⟩⟩
  have hneg : duration r < 0 := sub_neg.mpr h
  simp only [shortVisit, defaultConfig, decide_eq_true_eq]
  linarith

/-- C1 witness: the amended theorem applied to the concrete bad record. -/
theorem C1_witness :
    duration negRecord < 0 ∧ shortVisit defaultConfig negRecord = true :=
  C1_negative_duration_passes_through.2 negRecord (by norm_num [negRecord])

/-! ### C2: overlapping consecutive visits -/

/-- C2 counterexample: for two overlapping same-date visits (08:00–09:30 then
09:00–10:00) the derived gap list is `[-30]` — the raw negative value, not the
zero-length gap with a `negative_gap` marker the claim describes (no such
marker exists anywhere in the output). -/
theorem C2_counterexample :
    all_gaps sampleOverlap = [(-30 : ℚ)] ∧ ((-30 : ℚ) ≠ 0) := by
  constructor
  · norm_num [all_gaps, sampleOverlap, uniqueDates, uniqueFirstSeenAux, uniqueFirstSeen,
      visitsOn, sortByComing, dayGaps, overlap1, overlap2, comingLE, List.filter]
  · norm_num

/-- C2 amended: gap derivation indeed does not fail on overlapping visits and
the run proceeds, but the negative `gap_duration` is recorded as-is: it is
neither clamped to zero nor flagged. -/
theorem C2_negative_gap_recorded_raw :
    ∀ r1 r2 : Record, r1.date = r2.date → comingLE r1 r2 →
      all_gaps [r1, r2] = [r2.coming - r1.going] ∧
      (r2.coming < r1.going → r2.coming - r1.going < 0) := by
  intro r1 r2 hdate hle
  refine ⟨?_, fun h => sub_neg.mpr h⟩
  simp [all_gaps, uniqueDates, uniqueFirstSeen, uniqueFirstSeenAux, visitsOn,
    sortByComing, dayGaps, hdate, hle, List.filter]

/-- C2 witness: the amended theorem applied to the concrete overlapping pair. -/
theorem C2_witness :
    all_gaps [overlap1, overlap2] = [overlap2.coming - overlap1.going] ∧
      (overlap2.coming < overlap1.going → overlap2.coming - overlap1.going < 0) :=
  C2_negative_gap_recorded_raw overlap1 overlap2 rfl (by norm_num [comingLE, overlap1, overlap2])

/-! ### C3: zero gaps -/

/-- C3 counterexample: on a dataset where every date has exactly one visit
(so the total gap count is zero), the short-gap statistic computation raises
`ZeroDivisionError` and the run aborts — it is fatal, not a reported
"not applicable" value alongside the remaining statistics. -/
theorem C3_counterexample :
    ((uniqueDates sampleSoloDays).all
        (fun d => (visitsOn sampleSoloDays d).length == 1)) = true ∧
      shortGapStats defaultConfig sampleSoloDays = Except.error "ZeroDivisionError" := by
  constructor
  · decide
  · decide

/-- C3 amended: whenever the derived gap list is empty, the short-gap block
fails with a division-by-zero error (the percentage `short_gaps/len(all_gaps)`
is computed unconditionally), aborting the run. -/
theorem C3_zero_gaps_fatal :
    ∀ (cfg : Config) (rs : List Record), (all_gaps rs).length = 0 →
      shortGapStats cfg rs = Except.error "ZeroDivisionError" := by
  intro cfg rs h
  simp [shortGapStats, h]

/-- C3 witness: the amended theorem applied to a one-visit dataset. -/
theorem C3_witness :
    shortGapStats defaultConfig [solo1] = Except.error "ZeroDivisionError" :=
  C3_zero_gaps_fatal defaultConfig [solo1] (by decide)

/-! ### C7: monotonicity of the short-visit count in the threshold -/

/-- C7: the short-visit count is monotone in the threshold — for thresholds
`t1 ≤ t2`, the number of visits with `duration < t1` is at most the number
with `duration < t2`, so lowering the threshold never increases the count. -/
theorem C7_short_visit_count_monotone :
    ∀ (cfg1 cfg2 : Config) (rs : List Record),
      cfg1.short_visit ≤ cfg2.short_visit →
      shortVisitCount cfg1 rs ≤ shortVisitCount cfg2 rs := by
  intro c1 c2 rs h
  induction rs with
  | nil => simp [shortVisitCount]
  | cons r rest ih =>
    by_cases h1 : shortVisit c1 r = true
    · have h2 : shortVisit c2 r = true := by
        simp only [shortVisit, decide_eq_true_eq] at h1 ⊢
        linarith
      simp only [shortVisitCount, List.filter_cons, h1, h2, if_true, List.length_cons]
      exact Nat.succ_le_succ ih
    · rw [Bool.not_eq_true] at h1
      by_cases h2 : shortVisit c2 r = true
      · simp only [shortVisitCount, List.filter_cons, h1, h2, Bool.false_eq_true,
          if_true, if_false, List.length_cons]
        exact Nat.le_succ_of_le ih
      · rw [Bool.not_eq_true] at h2
        simp only [shortVisitCount, List.filter_cons, h1, h2, Bool.false_eq_true, if_false]
        exact ih

/-- C7 witness: the monotonicity theorem at thresholds 5 and 10 on a concrete
dataset. -/
theorem C7_witness :
    shortVisitCount ⟨5, 150⟩ samplePeriods ≤ shortVisitCount defaultConfig samplePeriods :=
  C7_short_visit_count_monotone ⟨5, 150⟩ defaultConfig samplePeriods
    (by norm_num [defaultConfig])

/-! ### C8: statelessness / determinism -/

/-- C8: the whole metrics pipeline is a pure function of the record list and
the configuration — equal inputs give equal reports, every derived value
(durations, short flags, gaps, totals, averages, forecast) included. -/
theorem C8_deterministic :
    ∀ (cfg1 cfg2 : Config) (rs1 rs2 : List Record),
      cfg1 = cfg2 → rs1 = rs2 → analyze cfg1 rs1 = analyze cfg2 rs2 := by
  intro c1 c2 r1 r2 hc hr
  rw [hc, hr]

/-- C8 witness: two runs on the identical concrete input coincide. -/
theorem C8_witness :
    analyze defaultConfig sampleOverlap = analyze defaultConfig sampleOverlap :=
  C8_deterministic defaultConfig defaultConfig sampleOverlap sampleOverlap rfl rfl

/-! ### C6: shape of the gap derivation -/

/-- C6: per date, gaps pair consecutive arrival-sorted visits with
`gap = arrival(i+1) − departure(i)`; dates with at most one visit contribute
no gap; and the total gap count is the sum over the distinct dates of
(visit count − 1) for dates with at least two visits. -/
theorem C6_gap_derivation :
    (∀ l : List Record,
      dayGaps l = (l.zip l.tail).map (fun g => g.2.coming - g.1.going)) ∧
    (∀ (rs : List Record) (d : Date), (visitsOn rs d).length ≤ 1 →
      dayGaps (sortByComing (visitsOn rs d)) = []) ∧
    (∀ rs : List Record, (all_gaps rs).length =
      ((uniqueDates rs).map (fun d =>
        if 2 ≤ (visitsOn rs d).length then (visitsOn rs d).length - 1 else 0)).sum) := by
  refine ⟨dayGaps_zip, ?_, ?_⟩
  · intro rs d h
    have hlen : (sortByComing (visitsOn rs d)).length ≤ 1 := by
      rw [sortByComing, List.length_insertionSort]
      exact h
    cases hs : sortByComing (visitsOn rs d) with
    | nil => rfl
    | cons x t =>
      cases t with
      | nil => rfl
      | cons y t' =>
        rw [hs] at hlen
        simp at hlen
  · intro rs
    have hpt : ∀ d : Date, (dayGaps (sortByComing (visitsOn rs d))).length =
        (if 2 ≤ (visitsOn rs d).length then (visitsOn rs d).length - 1 else 0) := by
      intro d
      rw [length_dayGaps, sortByComing, List.length_insertionSort]
      by_cases h2 : 2 ≤ (visitsOn rs d).length
      · rw [if_pos h2]
      · rw [if_neg h2]
        omega
    rw [all_gaps, List.flatMap, List.length_flatten, List.map_map]
    simp only [Function.comp_def, hpt]

/-- C6 witness: the middle part of the theorem applied to a date with a
single visit, together with the first part on a concrete day group. -/
theorem C6_witness :
    dayGaps (sortByComing (visitsOn sampleSoloDays ⟨2024, 3, 1⟩)) = [] :=
  C6_gap_derivation.2.1 sampleSoloDays ⟨2024, 3, 1⟩ (by decide)

/-! ### C10: which month and which days feed the forecast -/

/-- C10: the forecast's calendar month comes from the first record in input
order, and the span endpoints are the min/max day-of-month over all records;
consequently permuting a two-month input changes the forecast, shown on a
concrete pair of permuted datasets (January-first forecasts 2 hours,
February-first forecasts 58/31 hours). -/
theorem C10_forecast_order_dependent :
    (∀ (r : Record) (rest : List Record),
      current_month (r :: rest) = r.date.month ∧
      current_year (r :: rest) = r.date.year ∧
      days_in_month (r :: rest) = daysInMonth r.date.year r.date.month) ∧
    sampleFebJan.Perm sampleJanFeb ∧
    first_day sampleJanFeb = 1 ∧ last_day sampleJanFeb = 31 ∧
    forecasted_total sampleJanFeb = 2 ∧
    forecasted_total sampleFebJan = 58 / 31 ∧
    forecasted_total sampleJanFeb ≠ forecasted_total sampleFebJan := by
  have hA : forecasted_total sampleJanFeb = 2 := by
    norm_num [forecasted_total, daily_average, total_hours, total_minutes, sampleJanFeb,
      duration, total_days_covered, first_day, last_day, minD, maxD, days_in_month,
      current_month, current_year, daysInMonth, isLeapYear, visitJan, visitFeb]
  have hB : forecasted_total sampleFebJan = 58 / 31 := by
    norm_num [forecasted_total, daily_average, total_hours, total_minutes, sampleFebJan,
      duration, total_days_covered, first_day, last_day, minD, maxD, days_in_month,
      current_month, current_year, daysInMonth, isLeapYear, visitJan, visitFeb]
  refine ⟨fun r rest => ⟨rfl, rfl, rfl⟩, by decide, by decide, by decide, hA, hB, ?_⟩
  rw [hA, hB]
  norm_num

/-! ### C5: ordering of the per-period groups -/

/-- C5 counterexample: on input whose period labels first appear in the order
Noon, Morning, the per-period averages are listed as Morning, Noon —
alphabetical order, not first-seen order; the first-seen listing would be a
different list. -/
theorem C5_counterexample :
    periodsFirstSeen samplePeriods = ["Noon", "Morning"] ∧
    (avg_duration samplePeriods).map Prod.fst = ["Morning", "Noon"] ∧
    avg_duration samplePeriods ≠ avg_duration_first_seen samplePeriods := by
  refine ⟨by decide, by decide, by decide⟩

/-- C5 amended: the per-period average statistic is the mean of
`duration_minutes` per period label, with the groups listed in ascending
lexicographic (alphabetical) order of the label — sorted, duplicate-free, and
covering exactly the labels present in the input. -/
theorem C5_groups_alphabetical :
    ∀ rs : List Record,
      ((avg_duration rs).map Prod.fst).Sorted strLE ∧
      (∀ p : String, p ∈ (avg_duration rs).map Prod.fst ↔
        p ∈ rs.map (fun r => r.period)) ∧
      ((avg_duration rs).map Prod.fst).Nodup ∧
      (∀ pm ∈ avg_duration rs,
        pm.2 = meanDuration (rs.filter (fun r => r.period = pm.1))) := by
  intro rs
  refine ⟨?_, ?_, ?_, ?_⟩
  · rw [avg_duration_keys]
    exact List.sorted_insertionSort strLE _
  · intro p
    rw [avg_duration_keys, List.Perm.mem_iff (List.perm_insertionSort strLE _)]
    exact mem_uniqueFirstSeen p _
  · rw [avg_duration_keys]
    exact (List.Perm.nodup_iff (List.perm_insertionSort strLE _)).mpr
      (nodup_uniqueFirstSeen _)
  · intro pm hpm
    rw [avg_duration] at hpm
    rcases List.mem_map.mp hpm with ⟨p, hp, rfl⟩
    rfl

/-- C5 witness: the amended theorem at the concrete dataset, with the
group-mean clause instantiated at the Morning group. -/
theorem C5_witness :
    ((avg_duration samplePeriods).map Prod.fst).Sorted strLE ∧
      (("Morning", (60 : ℚ)) : String × ℚ).2 =
        meanDuration (samplePeriods.filter
          (fun r => r.period = (("Morning", (60 : ℚ)) : String × ℚ).1)) :=
  ⟨(C5_groups_alphabetical samplePeriods).1,
   (C5_groups_alphabetical samplePeriods).2.2.2 ("Morning", (60 : ℚ)) (by
      have hkeys : (periodsFirstSeen samplePeriods).insertionSort strLE =
          ["Morning", "Noon"] := by decide
      have h1 : samplePeriods.filter (fun r => r.period = "Morning") =
          [⟨⟨2024, 3, 1⟩, 400, 460, "Morning"⟩] := by decide
      rw [avg_duration, hkeys]
      norm_num [meanDuration, duration, h1])⟩

/-! ### C4: the monthly forecast formula -/

/-- C4 counterexample: on records spanning 2024-01-31 and 2024-02-01 the
spec's formula (inclusive date span of 2 days, month of the earliest date)
yields 31 forecast hours, while the script — which uses the min/max
day-of-month (1 and 31) as span endpoints — yields 2; so the forecast does
not equal `(total_hours / (last_date − first_date + 1)) ×
days_in_calendar_month(first_date)` for every non-empty visit set. -/
theorem C4_counterexample :
    spec_forecast sampleJanFeb = 31 ∧ forecasted_total sampleJanFeb = 2 ∧
      forecasted_total sampleJanFeb ≠ spec_forecast sampleJanFeb := by
  have h1 : spec_forecast sampleJanFeb = 31 := by
    norm_num [spec_forecast, total_hours, total_minutes, sampleJanFeb, duration,
      spec_coverage_days, minD, maxD, dateOrdinal, yearMonthBase, daysBeforeMonth,
      firstDate, visitJan, visitFeb, daysInMonth, isLeapYear, List.range, List.range.loop]
  have h2 : forecasted_total sampleJanFeb = 2 := by
    norm_num [forecasted_total, daily_average, total_hours, total_minutes, sampleJanFeb,
      duration, total_days_covered, first_day, last_day, minD, maxD, days_in_month,
      current_month, current_year, daysInMonth, isLeapYear, visitJan, visitFeb]
  refine ⟨h1, h2, ?_⟩
  rw [h1, h2]
  norm_num

/-- C4 amended: the script's coverage span runs between the minimum and
maximum day-of-month, and its calendar month is that of the first record in
input order; for visit sets lying within a single calendar month this agrees
with the spec's inclusive date span and earliest-date month, and on the claim's
example (days 1–10 of 31-day January 2024, 20 total hours) the coverage is 10
days and the forecast 62 hours. -/
theorem C4_forecast_formula :
    (∀ (r0 : Record) (rest : List Record),
      (∀ r ∈ r0 :: rest, r.date.year = r0.date.year ∧ r.date.month = r0.date.month) →
      total_days_covered (r0 :: rest) = spec_coverage_days (r0 :: rest) ∧
      forecasted_total (r0 :: rest) = spec_forecast (r0 :: rest)) ∧
    total_days_covered sampleTenDays = 10 ∧ total_hours sampleTenDays = 20 ∧
    forecasted_total sampleTenDays = 62 := by
  refine ⟨?_, by decide, ?_, ?_⟩
  · intro r0 rest hall
    have hmapord : (r0 :: rest).map (fun r => dateOrdinal r.date) =
        ((r0 :: rest).map (fun r => r.date.day)).map
          (fun x => yearMonthBase r0.date.year r0.date.month + x) := by
      rw [List.map_map]
      apply List.map_congr_left
      intro r hr
      rcases hall r hr with ⟨hy, hm⟩
      simp [dateOrdinal, hy, hm]
    have hne : (r0 :: rest).map (fun r => r.date.day) ≠ [] := by simp
    have hcov : spec_coverage_days (r0 :: rest) = total_days_covered (r0 :: rest) := by
      rw [spec_coverage_days, hmapord, minD_map_add _ _ hne, maxD_map_add _ _ hne,
        total_days_covered, first_day, last_day]
      omega
    have hfd := firstDate_year_month r0 rest hall
    refine ⟨hcov.symm, ?_⟩
    rw [forecasted_total, daily_average, spec_forecast, hcov, hfd.1, hfd.2]
    rfl
  · norm_num [total_hours, total_minutes, sampleTenDays, duration]
  · norm_num [forecasted_total, daily_average, total_hours, total_minutes, sampleTenDays,
      duration, total_days_covered, first_day, last_day, minD, maxD, days_in_month,
      current_month, current_year, daysInMonth, isLeapYear]

/-- C4 witness: the single-month agreement applied to a concrete two-day
March dataset. -/
theorem C4_witness :
    total_days_covered (solo1 :: [solo2]) = spec_coverage_days (solo1 :: [solo2]) ∧
      forecasted_total (solo1 :: [solo2]) = spec_forecast (solo1 :: [solo2]) :=
  C4_forecast_formula.1 solo1 [solo2] (by decide)

/-! ### C9: mean of group means versus mean over all visits -/

/-- C9 counterexample: a dataset with three period groups of pairwise
different sizes (1, 2, 6) and pairwise different group means (10, 40, 20)
on which the mean of the group means and the mean over all visits coincide
(both 70/3) — refuting "for any dataset whose period groups have unequal
sizes and unequal group means, these two values differ". -/
theorem C9_counterexample :
    (sampleThreeGroups.filter (fun r => r.period = "A")).length = 1 ∧
    (sampleThreeGroups.filter (fun r => r.period = "B")).length = 2 ∧
    (sampleThreeGroups.filter (fun r => r.period = "C")).length = 6 ∧
    meanDuration (sampleThreeGroups.filter (fun r => r.period = "A")) = 10 ∧
    meanDuration (sampleThreeGroups.filter (fun r => r.period = "B")) = 40 ∧
    meanDuration (sampleThreeGroups.filter (fun r => r.period = "C")) = 20 ∧
    overall_average sampleThreeGroups = visitMean sampleThreeGroups := by
  have h1 : sampleThreeGroups.filter (fun r => r.period = "A") =
      [⟨⟨2024, 3, 1⟩, 0, 10, "A"⟩] := by decide
  have h2 : sampleThreeGroups.filter (fun r => r.period = "B") =
      [⟨⟨2024, 3, 2⟩, 0, 40, "B"⟩, ⟨⟨2024, 3, 3⟩, 0, 40, "B"⟩] := by decide
  have h3 : sampleThreeGroups.filter (fun r => r.period = "C") =
      [⟨⟨2024, 3, 4⟩, 0, 20, "C"⟩, ⟨⟨2024, 3, 5⟩, 0, 20, "C"⟩,
       ⟨⟨2024, 3, 6⟩, 0, 20, "C"⟩, ⟨⟨2024, 3, 7⟩, 0, 20, "C"⟩,
       ⟨⟨2024, 3, 8⟩, 0, 20, "C"⟩, ⟨⟨2024, 3, 9⟩, 0, 20, "C"⟩] := by decide
  have hover : overall_average sampleThreeGroups = 70 / 3 := by
    have hkeys : (periodsFirstSeen sampleThreeGroups).insertionSort strLE =
        ["A", "B", "C"] := by decide
    rw [overall_average, avg_duration, hkeys]
    norm_num [meanDuration, duration, h1, h2, h3]
  have hvm : visitMean sampleThreeGroups = 70 / 3 := by
    norm_num [visitMean, meanDuration, duration, sampleThreeGroups]
  refine ⟨by rw [h1]; rfl, by rw [h2]; rfl, by rw [h3]; rfl, ?_, ?_, ?_, ?_⟩
  · rw [h1]; norm_num [meanDuration, duration]
  · rw [h2]; norm_num [meanDuration, duration]
  · rw [h3]; norm_num [meanDuration, duration]
  · rw [hover, hvm]

/-- C9 amended: the reported overall average is the unweighted mean of the
per-period means; when there are exactly two period groups, unequal group
sizes together with unequal group means force it to differ from the mean over
all visits (with three or more groups the two can coincide). -/
theorem C9_two_group_difference :
    ∀ (rs : List Record) (p q : String),
      (avg_duration rs).map Prod.fst = [p, q] →
      (rs.filter (fun r => r.period = p)).length ≠
        (rs.filter (fun r => r.period = q)).length →
      meanDuration (rs.filter (fun r => r.period = p)) ≠
        meanDuration (rs.filter (fun r => r.period = q)) →
      (overall_average rs =
        (meanDuration (rs.filter (fun r => r.period = p)) +
          meanDuration (rs.filter (fun r => r.period = q))) / 2 ∧
        overall_average rs ≠ visitMean rs) := by
  intro rs p q hkeys hn hm
  have hkeys' : (periodsFirstSeen rs).insertionSort strLE = [p, q] :=
    (avg_duration_keys rs).symm.trans hkeys
  have havg : avg_duration rs =
      [(p, meanDuration (rs.filter (fun r => r.period = p))),
       (q, meanDuration (rs.filter (fun r => r.period = q)))] := by
    rw [avg_duration, hkeys']
    rfl
  have hnd : ([p, q] : List String).Nodup := by
    rw [← hkeys']
    exact (List.Perm.nodup_iff (List.perm_insertionSort strLE _)).mpr
      (nodup_uniqueFirstSeen _)
  have hpq : p ≠ q := by
    simp only [List.nodup_cons, List.mem_singleton] at hnd
    exact hnd.1
  have hall : ∀ r ∈ rs, r.period = p ∨ r.period = q := by
    intro r hr
    have h1 : r.period ∈ rs.map (fun r => r.period) := List.mem_map_of_mem _ hr
    have h2 : r.period ∈ periodsFirstSeen rs := (mem_uniqueFirstSeen _ _).mpr h1
    have h3 : r.period ∈ (periodsFirstSeen rs).insertionSort strLE :=
      (List.Perm.mem_iff (List.perm_insertionSort strLE _)).mpr h2
    rw [hkeys'] at h3
    simpa using h3
  have hmem : ∀ s : String, s ∈ ([p, q] : List String) →
      1 ≤ (rs.filter (fun r => r.period = s)).length := by
    intro s hs
    rw [← hkeys'] at hs
    have h2 : s ∈ periodsFirstSeen rs :=
      (List.Perm.mem_iff (List.perm_insertionSort strLE _)).mp hs
    have h3 : s ∈ rs.map (fun r => r.period) := (mem_uniqueFirstSeen _ _).mp h2
    rcases List.mem_map.mp h3 with ⟨r, hr, hper⟩
    have h4 : r ∈ rs.filter (fun r => r.period = s) :=
      List.mem_filter.mpr ⟨hr, by simp [hper]⟩
    have := List.length_pos.mpr (List.ne_nil_of_mem h4)
    omega
  obtain ⟨hlen, hsum⟩ := filter_period_partition p q hpq rs hall
  have hplen := hmem p (by simp)
  have hqlen := hmem q (by simp)
  have ha : (0 : ℚ) < ((rs.filter (fun r => r.period = p)).length : ℚ) := by
    exact_mod_cast hplen
  have hb : (0 : ℚ) < ((rs.filter (fun r => r.period = q)).length : ℚ) := by
    exact_mod_cast hqlen
  have hov : overall_average rs =
      (meanDuration (rs.filter (fun r => r.period = p)) +
        meanDuration (rs.filter (fun r => r.period = q))) / 2 := by
    rw [overall_average, havg]
    simp
  refine ⟨hov, ?_⟩
  have hvm : visitMean rs =
      (((rs.filter (fun r => r.period = p)).map duration).sum +
        ((rs.filter (fun r => r.period = q)).map duration).sum) /
        (((rs.filter (fun r => r.period = p)).length : ℚ) +
          ((rs.filter (fun r => r.period = q)).length : ℚ)) := by
    rw [visitMean, meanDuration, ← hsum, ← hlen]
    push_cast
    ring
  rw [hov, hvm]
  set a : ℚ := ((rs.filter (fun r => r.period = p)).length : ℚ) with hadef
  set b : ℚ := ((rs.filter (fun r => r.period = q)).length : ℚ) with hbdef
  set S1 : ℚ := ((rs.filter (fun r => r.period = p)).map duration).sum with hS1def
  set S2 : ℚ := ((rs.filter (fun r => r.period = q)).map duration).sum with hS2def
  have hm' : S1 / a ≠ S2 / b := by
    simpa [meanDuration, hadef, hbdef, hS1def, hS2def] using hm
  have hab : a ≠ b := by
    simp only [hadef, hbdef]
    exact_mod_cast hn
  rw [meanDuration, meanDuration]
  intro heq
  have hane : a ≠ 0 := ne_of_gt ha
  have hbne : b ≠ 0 := ne_of_gt hb
  have habne : a + b ≠ 0 := by positivity
  have heq' : (S1 / a + S2 / b) * (a + b) = (S1 + S2) * 2 := by
    rw [div_eq_div_iff (by norm_num : (2 : ℚ) ≠ 0) habne] at heq
    linarith [heq]
  have key : (S1 / a - S2 / b) * (b - a) = 0 := by
    have e1 : S1 / a * a = S1 := div_mul_cancel₀ S1 hane
    have e2 : S2 / b * b = S2 := div_mul_cancel₀ S2 hbne
    nlinarith [heq', e1, e2]
  rcases mul_eq_zero.mp key with h | h
  · exact hm' (by linarith)
  · exact hab (by linarith)

/-- C9 witness: the two-group theorem applied to a concrete dataset with
group sizes 1 and 2 and group means 10 and 40 (overall average 25, visit
mean 30). -/
theorem C9_witness :
    overall_average sampleTwoGroups =
      (meanDuration (sampleTwoGroups.filter (fun r => r.period = "A")) +
        meanDuration (sampleTwoGroups.filter (fun r => r.period = "B"))) / 2 ∧
      overall_average sampleTwoGroups ≠ visitMean sampleTwoGroups :=
  C9_two_group_difference sampleTwoGroups "A" "B" (by decide) (by decide) (by
    have h1 : sampleTwoGroups.filter (fun r => r.period = "A") =
        [⟨⟨2024, 3, 1⟩, 0, 10, "A"⟩] := by decide
    have h2 : sampleTwoGroups.filter (fun r => r.period = "B") =
        [⟨⟨2024, 3, 2⟩, 0, 40, "B"⟩, ⟨⟨2024, 3, 3⟩, 0, 40, "B"⟩] := by decide
    rw [h1, h2]
    norm_num [meanDuration, duration])

end CareTimes
